import Mathlib

/-!
Verification of the raw binary Ion reader.

The repository's `src/` tree contains the `RawReader` trait (the public cursor
contract, with its documentation) and the `read_all_values` example driver.
The binary implementation of the trait (`RawBinaryReader`) is not part of the
shown sources, so the definitions below model it from the specification:
a forward-only cursor over a byte stream with a container-frame stack,
a VarUInt/VarInt decoder, a type-descriptor decoder and lazily invoked
scalar decoders.  Bytes are modelled as natural numbers (reduced mod 256
where their bit patterns matter), machine integers as `Nat`/`Int` with
explicit bounds, and fallible operations return `Except` over the typed
error taxonomy.
-/

namespace Ion

/-- The closed set of Ion value types, as declared by `IonType` in the
repository (`Boolean`, `Integer`, `SExpression` spelling as in the source). -/
inductive IonType
  | Null
  | Boolean
  | Integer
  | Float
  | Decimal
  | Timestamp
  | Symbol
  | String
  | Clob
  | Blob
  | List
  | SExpression
  | Struct
deriving DecidableEq, Repr

/-- A raw symbol token: either a numeric symbol id or inline text, as in
`RawSymbolToken` from the repository (no symbol-table resolution here). -/
inductive RawSymbolToken
  | symbolId (id : Nat)
  | text (s : String)
deriving DecidableEq, Repr

/-- Modelled from the spec: the `DecodingError` branch of the error taxonomy
(malformed descriptor, truncated/overflowing VarUInt/VarInt, invalid text
encoding, out-of-range timestamp fields, unsupported version, invalid
negative-zero integer).  The concrete error enum is not in `src/`. -/
inductive DecodingError
  | overflow
  | truncated
  | malformedDescriptor
  | malformedIvm
  | unsupportedVersion
  | reservedTypeCode
  | nestedWrapper
  | invalidFloatLength
  | invalidUtf8
  | invalidTimestamp
  | negativeZeroInt
deriving DecidableEq, Repr

/-- Modelled from the spec: the `StateError` branch of the error taxonomy
(`step_in` on a non-container or null item, `step_out` at depth 0). -/
inductive StateErrorKind
  | stepInNotContainer
  | stepOutAtTopLevel
deriving DecidableEq, Repr

/-- Modelled from the spec: the `SourceError` branch (propagated byte-source
failure; unexpected end of input mid-value). -/
inductive SourceErrorKind
  | unexpectedEndOfInput
deriving DecidableEq, Repr

/-- Modelled from the spec: the typed error union behind `IonResult`.
Every fallible cursor operation fails with exactly one of these. -/
inductive IonError
  | decoding (e : DecodingError)
  | state (e : StateErrorKind)
  | source (e : SourceErrorKind)
deriving DecidableEq, Repr

/-- `IonResult<T>`, as used throughout the `RawReader` trait. -/
abbrev IonResult (α : Type) : Type := Except IonError α

/-- Raw stream components produced by `next()`, as declared by `StreamItem`
in the repository: a version marker or a value with its type and nullness. -/
inductive StreamItem
  | VersionMarker (major minor : Nat)
  | Value (itemType : IonType) (isNull : Bool)
deriving DecidableEq, Repr

/-- Modelled from the spec: magnitude cap of the VarUInt/VarInt decoder.
The public contract exposes 64-bit integers, so accumulated magnitudes are
limited to 63 bits. -/
def varUIntLimit : Nat := 2 ^ 63

/-- Modelled from the spec: the VarUInt decoding loop.  Bytes carry 7-bit
groups, most-significant group first; the terminal byte is distinguished by
its high (reserved) bit.  Returns the decoded value and the number of bytes
consumed, `DecodingError.truncated` if the input ends before a terminal
byte, and `DecodingError.overflow` if the accumulated magnitude would
exceed the supported native width. -/
def varUIntGo : List Nat → Nat → IonResult (Nat × Nat)
  | [], _ => .error (IonError.decoding DecodingError.truncated)
  | b :: rest, acc =>
    if varUIntLimit ≤ acc * 128 + b % 128 then
      .error (IonError.decoding DecodingError.overflow)
    else if 128 ≤ b then .ok (acc * 128 + b % 128, 1)
    else
      match varUIntGo rest (acc * 128 + b % 128) with
      | .ok (v, n) => .ok (v, n + 1)
      | .error e => .error e

/-- The value denoted by a list of VarUInt group bytes, starting from a
partial accumulator: each byte contributes its low 7 bits. -/
def varUIntValueFrom (acc : Nat) (bs : List Nat) : Nat :=
  bs.foldl (fun a b => a * 128 + b % 128) acc

/-- The value denoted by a complete list of VarUInt group bytes. -/
def varUIntValue (bs : List Nat) : Nat := varUIntValueFrom 0 bs

/-- Modelled from the spec: decode a VarUInt beginning at offset `p` of the
stream, returning the value and the offset just past the terminal byte. -/
def readVarUIntAt (bytes : List Nat) (p : Nat) : IonResult (Nat × Nat) :=
  match varUIntGo (bytes.drop p) 0 with
  | .ok (v, n) => .ok (v, p + n)
  | .error e => .error e

/-- Modelled from the spec: the VarInt decoding loop, split into sign and
magnitude.  The first byte additionally reserves a sign bit (`0x40`) and
contributes only 6 magnitude bits; continuation bytes contribute 7 bits as
in VarUInt.  Returns (negative, magnitude, bytes consumed). -/
def readVarIntParts : List Nat → IonResult (Bool × Nat × Nat)
  | [] => .error (IonError.decoding DecodingError.truncated)
  | b :: rest =>
    if 128 ≤ b then .ok (decide (64 ≤ b % 128), b % 64, 1)
    else
      match varUIntGo rest (b % 64) with
      | .ok (m, n) => .ok (decide (64 ≤ b % 128), m, n + 1)
      | .error e => .error e

/-- Apply a VarInt sign to a decoded magnitude. -/
def signedInt (neg : Bool) (m : Nat) : Int :=
  if neg then -(m : Int) else (m : Int)

/-- Modelled from the spec: decode a VarInt into a signed 64-bit-bounded
integer together with the number of bytes consumed. -/
def readVarInt (bs : List Nat) : IonResult (Int × Nat) :=
  match readVarIntParts bs with
  | .ok (neg, m, n) => .ok (signedInt neg m, n)
  | .error e => .error e

/-- The first byte of a VarInt encoding: optional terminal bit (`0x80`),
optional sign bit (`0x40`), and the 6 most significant magnitude bits. -/
def varIntFirstByte (neg : Bool) (m0 : Nat) (terminal : Bool) : Nat :=
  (if terminal then 128 else 0) + (if neg then 64 else 0) + m0

/-- Modelled from the spec: a decimal value — an arbitrary-precision
signed-magnitude coefficient (with a distinguished negative zero) and a
signed exponent, as produced by the missing `Decimal` decoder. -/
structure Decimal where
  isNegative : Bool
  coefficientMag : Nat
  exponent : Int
deriving DecidableEq, Repr

/-- Modelled from the spec: the derived precision of a timestamp — the most
specific sub-field present in its encoding. -/
inductive TimestampPrecision
  | year
  | month
  | day
  | hourAndMinute
  | second
  | fractionalSecond
deriving DecidableEq, Repr

/-- Modelled from the spec: a timestamp with ordered optional sub-fields and
a derived precision.  `offset = none` models the explicit "unknown offset"
(a negative-zero offset VarInt), distinct from an offset of zero. -/
structure Timestamp where
  offset : Option Int
  year : Nat
  month : Nat := 1
  day : Nat := 1
  hour : Nat := 0
  minute : Nat := 0
  second : Nat := 0
  fracExponent : Int := 0
  fracCoefficient : Int := 0
  precision : TimestampPrecision
deriving DecidableEq, Repr

/-- Modelled from the spec: an IEEE float value at the bit level — a float
body of length 0 denotes 0.0, length 4 a single-precision bit pattern and
length 8 a double-precision bit pattern.  Floating-point arithmetic itself
is not modelled; values are kept as their decoded bit patterns. -/
inductive FloatRepr
  | zero
  | single (bits : Nat)
  | double (bits : Nat)
deriving DecidableEq, Repr

/-- Modelled from the spec: the classification of the value currently under
the cursor — its type, nullness, declared body length and the extra bits of
the descriptor a later `read_*` call needs (integer sign, boolean value). -/
structure Current where
  itemType : IonType
  isNull : Bool
  bodyLen : Nat
  intNegative : Bool := false
  boolVal : Bool := false
deriving DecidableEq, Repr

/-- Modelled from the spec: a container frame — kind and byte-range
boundary.  The end offset is fixed at `step_in` time and never changes. -/
structure Frame where
  kind : IonType
  startOffset : Nat
  endOffset : Nat
deriving DecidableEq, Repr

/-- Modelled from the spec: the cursor state — the byte source (a frozen
byte list plus the current position), the container-frame stack, the
reported stream version, the current item's classification, its
annotations and the pending struct field name. -/
structure CursorState where
  bytes : List Nat
  pos : Nat
  frames : List Frame
  versionMajor : Nat
  versionMinor : Nat
  current : Option Current
  annots : List RawSymbolToken
  fieldName : Option RawSymbolToken
deriving DecidableEq, Repr

/-- Modelled from the spec: a fresh cursor bound to one byte source.  Before
any Ion Version Marker has been read the reported version is (1, 0). -/
def initState (bytes : List Nat) : CursorState :=
  { bytes := bytes, pos := 0, frames := [], versionMajor := 1, versionMinor := 0,
    current := none, annots := [], fieldName := none }

/-- `depth()`: the number of open containers, i.e. the frame-stack length. -/
def depth (s : CursorState) : Nat := s.frames.length

/-- `ion_version()`: the (major, minor) version of the stream being read. -/
def ion_version (s : CursorState) : Nat × Nat := (s.versionMajor, s.versionMinor)

/-- `ion_type()`: the type of the value under the cursor, if any. -/
def ion_type (s : CursorState) : Option IonType := s.current.map Current.itemType

/-- `is_null()`: whether the current value is a null of any type. -/
def is_null (s : CursorState) : Bool :=
  match s.current with
  | some c => c.isNull
  | none => false

/-- `annotations()`: the annotations of the current value. -/
def annotations (s : CursorState) : List RawSymbolToken := s.annots

/-- `field_name()`: the field name of the current value when inside a struct. -/
def field_name (s : CursorState) : Option RawSymbolToken := s.fieldName

/-- `read_null()`: the declared type of the current value when it is a null. -/
def read_null (s : CursorState) : IonResult (Option IonType) :=
  match s.current with
  | some c => .ok (if c.isNull then some c.itemType else none)
  | none => .ok none

/-- The byte position the cursor reaches once the current item's body has
been skipped; when no item is positioned this is just the position. -/
def effPos (s : CursorState) : Nat :=
  match s.current with
  | some c => s.pos + c.bodyLen
  | none => s.pos

/-- Whether an Ion type is a container (list, s-expression or struct). -/
def isContainer : IonType → Bool
  | IonType.List => true
  | IonType.SExpression => true
  | IonType.Struct => true
  | _ => false

/-- Modelled from the spec: `step_in()` — valid only when the current item is
a non-null container; pushes a frame whose end offset is the current
position plus the remaining declared length, and fails with a state error
otherwise. -/
def stepIn (s : CursorState) : IonResult CursorState :=
  match s.current with
  | some c =>
    if isContainer c.itemType = true ∧ c.isNull = false then
      .ok { s with frames := ⟨c.itemType, s.pos, s.pos + c.bodyLen⟩ :: s.frames,
                   current := none, annots := [], fieldName := none }
    else .error (IonError.state StateErrorKind.stepInNotContainer)
  | none => .error (IonError.state StateErrorKind.stepInNotContainer)

/-- Modelled from the spec: `step_out()` — valid whenever `depth() > 0`;
pops the innermost frame and unconditionally repositions the byte cursor at
that frame's recorded end offset, discarding any unread remainder.  At
depth 0 it fails with a state error. -/
def stepOut (s : CursorState) : IonResult CursorState :=
  match s.frames with
  | [] => .error (IonError.state StateErrorKind.stepOutAtTopLevel)
  | f :: rest =>
    .ok { s with pos := f.endOffset, frames := rest,
                 current := none, annots := [], fieldName := none }

/-- The big-endian magnitude denoted by a list of 8-bit body bytes. -/
def magnitudeOfBytes (bs : List Nat) : Nat :=
  bs.foldl (fun a b => a * 256 + b % 256) 0

/-- Modelled from the spec: fetch the current item's body bytes from the
byte source, failing with a source error if the stream ends mid-value. -/
def bodyBytes (s : CursorState) (c : Current) : IonResult (List Nat) :=
  if ((s.bytes.drop s.pos).take c.bodyLen).length = c.bodyLen then
    .ok ((s.bytes.drop s.pos).take c.bodyLen)
  else .error (IonError.source SourceErrorKind.unexpectedEndOfInput)

/-- Whether a byte is a UTF-8 continuation byte. -/
def isContByte (b : Nat) : Bool := decide (128 ≤ b % 256 ∧ b % 256 < 192)

/-- Modelled from the spec: validation of a string body in the format's
required text encoding (UTF-8 lead/continuation byte structure). -/
def isValidUtf8 : List Nat → Bool
  | [] => true
  | b :: rest =>
    if b % 256 < 128 then isValidUtf8 rest
    else if b % 256 < 194 then false
    else if b % 256 < 224 then
      match rest with
      | c1 :: r => isContByte c1 && isValidUtf8 r
      | [] => false
    else if b % 256 < 240 then
      match rest with
      | c1 :: c2 :: r => isContByte c1 && isContByte c2 && isValidUtf8 r
      | _ => false
    else if b % 256 < 245 then
      match rest with
      | c1 :: c2 :: c3 :: r =>
        isContByte c1 && isContByte c2 && isContByte c3 && isValidUtf8 r
      | _ => false
    else false

/-- Modelled from the spec: the shared shape of every typed `read_*`
accessor.  A `read_*()` call is valid only while positioned on a matching
non-null type: then it runs the scalar decoder; on a type mismatch (or on a
null, or with no current value) it returns `Ok(None)`, never an error. -/
def whenMatching (s : CursorState) (t : IonType) (k : Current → IonResult α) :
    IonResult (Option α) :=
  match s.current with
  | none => .ok none
  | some c =>
    if c.itemType = t ∧ c.isNull = false then
      match k c with
      | .ok v => .ok (some v)
      | .error e => .error e
    else .ok none

/-- Modelled from the spec: the integer body decoder — a big-endian
magnitude over the declared body length, sign given by the descriptor's
type code, empty body denoting zero; a negative-zero encoding is a decoding
error, and a magnitude beyond the 64-bit public contract overflows. -/
def decodeInt (s : CursorState) (c : Current) : IonResult Int :=
  match bodyBytes s c with
  | .error e => .error e
  | .ok bs =>
    if c.intNegative ∧ magnitudeOfBytes bs = 0 then
      .error (IonError.decoding DecodingError.negativeZeroInt)
    else if varUIntLimit ≤ magnitudeOfBytes bs then
      .error (IonError.decoding DecodingError.overflow)
    else .ok (signedInt c.intNegative (magnitudeOfBytes bs))

/-- Modelled from the spec: the float body decoder — body length 0 is 0.0,
length 4 a single-precision pattern, length 8 a double-precision pattern,
any other length a decoding error. -/
def decodeFloat (s : CursorState) (c : Current) : IonResult FloatRepr :=
  match bodyBytes s c with
  | .error e => .error e
  | .ok bs =>
    match bs.length with
    | 0 => .ok FloatRepr.zero
    | 4 => .ok (FloatRepr.single (magnitudeOfBytes bs))
    | 8 => .ok (FloatRepr.double (magnitudeOfBytes bs))
    | _ => .error (IonError.decoding DecodingError.invalidFloatLength)

/-- Modelled from the spec: the decimal body decoder — a VarInt exponent
followed by a signed-magnitude big-endian coefficient; an empty body is
coefficient 0 with exponent 0. -/
def decodeDecimal (s : CursorState) (c : Current) : IonResult Decimal :=
  match bodyBytes s c with
  | .error e => .error e
  | .ok [] => .ok ⟨false, 0, 0⟩
  | .ok (b0 :: brest) =>
    match readVarIntParts (b0 :: brest) with
    | .error e => .error e
    | .ok (eneg, emag, n) =>
      match (b0 :: brest).drop n with
      | [] => .ok ⟨false, 0, signedInt eneg emag⟩
      | cb :: crest =>
        .ok ⟨decide (128 ≤ cb % 256), magnitudeOfBytes (cb % 128 :: crest),
             signedInt eneg emag⟩

/-- Modelled from the spec: the string body decoder — the body bytes must be
valid text in the required encoding; validation happens at the accessor.
The decoded text is represented by its (validated) byte sequence. -/
def decodeStringBytes (s : CursorState) (c : Current) : IonResult (List Nat) :=
  match bodyBytes s c with
  | .error e => .error e
  | .ok bs =>
    if isValidUtf8 bs then .ok bs
    else .error (IonError.decoding DecodingError.invalidUtf8)

/-- Modelled from the spec: the timestamp body decoder — ordered
VarInt/VarUInt sub-fields (offset, year, then while body bytes remain:
month, day, hour and minute, second, fractional second); the declared body
length determines the derived precision; out-of-range calendar fields are a
decoding error. -/
def decodeTimestamp (bs : List Nat) : IonResult Timestamp :=
  match readVarIntParts bs with
  | .error e => .error e
  | .ok (oneg, omag, n1) =>
    match varUIntGo (bs.drop n1) 0 with
    | .error e => .error e
    | .ok (y, n2) =>
      let off : Option Int := if oneg ∧ omag = 0 then none else some (signedInt oneg omag)
      let r2 := (bs.drop n1).drop n2
      if r2.isEmpty then .ok { offset := off, year := y, precision := TimestampPrecision.year }
      else
        match varUIntGo r2 0 with
        | .error e => .error e
        | .ok (mo, n3) =>
          if mo < 1 ∨ 12 < mo then .error (IonError.decoding DecodingError.invalidTimestamp)
          else
            let r3 := r2.drop n3
            if r3.isEmpty then
              .ok { offset := off, year := y, month := mo,
                    precision := TimestampPrecision.month }
            else
              match varUIntGo r3 0 with
              | .error e => .error e
              | .ok (d, n4) =>
                if d < 1 ∨ 31 < d then
                  .error (IonError.decoding DecodingError.invalidTimestamp)
                else
                  let r4 := r3.drop n4
                  if r4.isEmpty then
                    .ok { offset := off, year := y, month := mo, day := d,
                          precision := TimestampPrecision.day }
                  else
                    match varUIntGo r4 0 with
                    | .error e => .error e
                    | .ok (hh, n5) =>
                      if 23 < hh then
                        .error (IonError.decoding DecodingError.invalidTimestamp)
                      else
                        let r5 := r4.drop n5
                        if r5.isEmpty then
                          .error (IonError.decoding DecodingError.invalidTimestamp)
                        else
                          match varUIntGo r5 0 with
                          | .error e => .error e
                          | .ok (mi, n6) =>
                            if 59 < mi then
                              .error (IonError.decoding DecodingError.invalidTimestamp)
                            else
                              let r6 := r5.drop n6
                              if r6.isEmpty then
                                .ok { offset := off, year := y, month := mo, day := d,
                                      hour := hh, minute := mi,
                                      precision := TimestampPrecision.hourAndMinute }
                              else
                                match varUIntGo r6 0 with
                                | .error e => .error e
                                | .ok (sec, n7) =>
                                  if 59 < sec then
                                    .error (IonError.decoding DecodingError.invalidTimestamp)
                                  else
                                    let r7 := r6.drop n7
                                    if r7.isEmpty then
                                      .ok { offset := off, year := y, month := mo,
                                            day := d, hour := hh, minute := mi,
                                            second := sec,
                                            precision := TimestampPrecision.second }
                                    else
                                      match readVarIntParts r7 with
                                      | .error e => .error e
                                      | .ok (feneg, femag, n8) =>
                                        match r7.drop n8 with
                                        | [] =>
                                          .ok { offset := off, year := y, month := mo,
                                                day := d, hour := hh, minute := mi,
                                                second := sec,
                                                fracExponent := signedInt feneg femag,
                                                fracCoefficient := 0,
                                                precision := TimestampPrecision.fractionalSecond }
                                        | cb :: crest =>
                                          .ok { offset := off, year := y, month := mo,
                                                day := d, hour := hh, minute := mi,
                                                second := sec,
                                                fracExponent := signedInt feneg femag,
                                                fracCoefficient :=
                                                  signedInt (decide (128 ≤ cb % 256))
                                                    (magnitudeOfBytes (cb % 128 :: crest)),
                                                precision := TimestampPrecision.fractionalSecond }

/-- `read_bool()`: the current boolean value, whose payload lives entirely
in the descriptor's length selector. -/
def read_bool (s : CursorState) : IonResult (Option Bool) :=
  whenMatching s IonType.Boolean (fun c => .ok c.boolVal)

/-- `read_i64()`: the current integer value as a signed 64-bit-bounded
integer. -/
def read_i64 (s : CursorState) : IonResult (Option Int) :=
  whenMatching s IonType.Integer (fun c => decodeInt s c)

/-- `read_f32()`: the current float value (kept at the bit level). -/
def read_f32 (s : CursorState) : IonResult (Option FloatRepr) :=
  whenMatching s IonType.Float (fun c => decodeFloat s c)

/-- `read_f64()`: the current float value (kept at the bit level). -/
def read_f64 (s : CursorState) : IonResult (Option FloatRepr) :=
  whenMatching s IonType.Float (fun c => decodeFloat s c)

/-- `read_decimal()`: the current decimal value. -/
def read_decimal (s : CursorState) : IonResult (Option Decimal) :=
  whenMatching s IonType.Decimal (fun c => decodeDecimal s c)

/-- `read_string()`: the current string value (its validated byte form). -/
def read_string (s : CursorState) : IonResult (Option (List Nat)) :=
  whenMatching s IonType.String (fun c => decodeStringBytes s c)

/-- `string_ref_map()`: run a closure over a borrowed view of the current
string's validated bytes; only the closure's result escapes. -/
def string_ref_map (s : CursorState) (f : List Nat → α) : IonResult (Option α) :=
  whenMatching s IonType.String (fun c =>
    match decodeStringBytes s c with
    | .ok bs => .ok (f bs)
    | .error e => .error e)

/-- `string_bytes_map()`: run a closure over the unvalidated string bytes. -/
def string_bytes_map (s : CursorState) (f : List Nat → α) : IonResult (Option α) :=
  whenMatching s IonType.String (fun c =>
    match bodyBytes s c with
    | .ok bs => .ok (f bs)
    | .error e => .error e)

/-- `read_symbol()`: the current symbol value — its body bytes, big-endian,
form the symbol id directly; an empty body denotes id 0. -/
def read_symbol (s : CursorState) : IonResult (Option RawSymbolToken) :=
  whenMatching s IonType.Symbol (fun c =>
    match bodyBytes s c with
    | .ok bs => .ok (RawSymbolToken.symbolId (magnitudeOfBytes bs))
    | .error e => .error e)

/-- `read_blob_bytes()`: the current blob value as an opaque byte span. -/
def read_blob_bytes (s : CursorState) : IonResult (Option (List Nat)) :=
  whenMatching s IonType.Blob (fun c => bodyBytes s c)

/-- `blob_ref_map()`: run a closure over a borrowed view of the blob body. -/
def blob_ref_map (s : CursorState) (f : List Nat → α) : IonResult (Option α) :=
  whenMatching s IonType.Blob (fun c =>
    match bodyBytes s c with
    | .ok bs => .ok (f bs)
    | .error e => .error e)

/-- `read_clob_bytes()`: the current clob value as an opaque byte span. -/
def read_clob_bytes (s : CursorState) : IonResult (Option (List Nat)) :=
  whenMatching s IonType.Clob (fun c => bodyBytes s c)

/-- `clob_ref_map()`: run a closure over a borrowed view of the clob body. -/
def clob_ref_map (s : CursorState) (f : List Nat → α) : IonResult (Option α) :=
  whenMatching s IonType.Clob (fun c =>
    match bodyBytes s c with
    | .ok bs => .ok (f bs)
    | .error e => .error e)

/-- `read_timestamp()`: the current timestamp value. -/
def read_timestamp (s : CursorState) : IonResult (Option Timestamp) :=
  whenMatching s IonType.Timestamp (fun c =>
    match bodyBytes s c with
    | .ok bs => decodeTimestamp bs
    | .error e => .error e)

/-- Modelled from the spec: the Ion type denoted by a descriptor's type
code.  Codes 14 (annotation wrapper) and 15 (reserved) denote no value
type.  Codes 2 and 3 are the positive and negative integer codes. -/
def ionTypeOfCode : Nat → Option IonType
  | 0 => some IonType.Null
  | 1 => some IonType.Boolean
  | 2 => some IonType.Integer
  | 3 => some IonType.Integer
  | 4 => some IonType.Float
  | 5 => some IonType.Decimal
  | 6 => some IonType.Timestamp
  | 7 => some IonType.Symbol
  | 8 => some IonType.String
  | 9 => some IonType.Clob
  | 10 => some IonType.Blob
  | 11 => some IonType.List
  | 12 => some IonType.SExpression
  | 13 => some IonType.Struct
  | _ => none

/-- Position the cursor over a freshly classified value: the byte position
moves to the start of the value's body and the classification, annotations
and pending field name are recorded. -/
def positionOn (s : CursorState) (p : Nat) (c : Current)
    (ans : List RawSymbolToken) (fname : Option RawSymbolToken) : CursorState :=
  { s with pos := p, current := some c, annots := ans, fieldName := fname }

/-- Modelled from the spec: parse one (non-wrapper) type descriptor at the
cursor position and classify the unit.  The length selector encodes a
literal length, the sentinel 14 meaning "read an additional VarUInt for the
true length" (a struct additionally reserves selector 1 for its ordered
variant, also VarUInt-lengthed), and the sentinel 15 meaning a typed null
with no body.  Type code 0 carries only the null sentinel; code 14 may not
appear below an annotation wrapper and code 15 is reserved. -/
def parsePlain (s : CursorState) (ans : List RawSymbolToken)
    (fname : Option RawSymbolToken) : IonResult (CursorState × Option StreamItem) :=
  match s.bytes.get? s.pos with
  | none => .error (IonError.source SourceErrorKind.unexpectedEndOfInput)
  | some b =>
    if b % 256 / 16 = 14 then .error (IonError.decoding DecodingError.nestedWrapper)
    else
      match ionTypeOfCode (b % 256 / 16) with
      | none => .error (IonError.decoding DecodingError.reservedTypeCode)
      | some ty =>
        if b % 16 = 15 then
          .ok (positionOn s (s.pos + 1) ⟨ty, true, 0, false, false⟩ ans fname,
               some (StreamItem.Value ty true))
        else
          match ty with
          | IonType.Null => .error (IonError.decoding DecodingError.malformedDescriptor)
          | IonType.Boolean =>
            if b % 16 ≤ 1 then
              .ok (positionOn s (s.pos + 1)
                     ⟨IonType.Boolean, false, 0, false, decide (b % 16 = 1)⟩ ans fname,
                   some (StreamItem.Value IonType.Boolean false))
            else .error (IonError.decoding DecodingError.malformedDescriptor)
          | _ =>
            if b % 16 = 14 ∨ (ty = IonType.Struct ∧ b % 16 = 1) then
              match readVarUIntAt s.bytes (s.pos + 1) with
              | .error e => .error e
              | .ok (len, p1) =>
                .ok (positionOn s p1 ⟨ty, false, len, decide (b % 256 / 16 = 3), false⟩
                       ans fname,
                     some (StreamItem.Value ty false))
            else
              .ok (positionOn s (s.pos + 1)
                     ⟨ty, false, b % 16, decide (b % 256 / 16 = 3), false⟩ ans fname,
                   some (StreamItem.Value ty false))

/-- Decode the VarUInt symbol ids filling an annotation list span.  The fuel
argument (instantiated with the span length) bounds the recursion. -/
def readSymbolIdsAux : Nat → List Nat → IonResult (List RawSymbolToken)
  | _, [] => .ok []
  | 0, _ :: _ => .error (IonError.decoding DecodingError.truncated)
  | fuel + 1, b :: rest =>
    match varUIntGo (b :: rest) 0 with
    | .error e => .error e
    | .ok (v, n) =>
      match readSymbolIdsAux fuel ((b :: rest).drop n) with
      | .ok ids => .ok (RawSymbolToken.symbolId v :: ids)
      | .error e => .error e

/-- Modelled from the spec: parse a possibly annotation-wrapped value at the
cursor position.  The wrapper type code's body is an inner VarUInt giving
the byte length of a symbol-id list, followed by that many VarUInt symbol
ids, followed immediately by the wrapped value's own descriptor and body;
the wrapped value's type and nullness become "the current item" while the
symbol ids are exposed through `annotations()`. -/
def parseAnnotated (s : CursorState) (fname : Option RawSymbolToken) :
    IonResult (CursorState × Option StreamItem) :=
  match s.bytes.get? s.pos with
  | none => .error (IonError.source SourceErrorKind.unexpectedEndOfInput)
  | some b =>
    if b % 256 / 16 = 14 then
      if b % 16 = 15 then .error (IonError.decoding DecodingError.malformedDescriptor)
      else
        match (if b % 16 = 14 then readVarUIntAt s.bytes (s.pos + 1)
               else .ok (b % 16, s.pos + 1)) with
        | .error e => .error e
        | .ok (_, p1) =>
          match readVarUIntAt s.bytes p1 with
          | .error e => .error e
          | .ok (alen, p2) =>
            if ((s.bytes.drop p2).take alen).length = alen then
              match readSymbolIdsAux alen ((s.bytes.drop p2).take alen) with
              | .error e => .error e
              | .ok ids => parsePlain { s with pos := p2 + alen } ids fname
            else .error (IonError.source SourceErrorKind.unexpectedEndOfInput)
    else parsePlain s [] fname

/-- Modelled from the spec: recognize the four-byte version-marker sequence
`E0 major minor EA` at depth 0, updating the reader's reported version.  An
out-of-range or unsupported version is a fatal decoding error. -/
def readIvm (s : CursorState) : IonResult (CursorState × Option StreamItem) :=
  match s.bytes.get? (s.pos + 1), s.bytes.get? (s.pos + 2), s.bytes.get? (s.pos + 3) with
  | some vmaj, some vmin, some tb =>
    if tb % 256 = 234 then
      if vmaj % 256 = 1 ∧ vmin % 256 = 0 then
        .ok ({ s with pos := s.pos + 4, versionMajor := vmaj % 256,
                      versionMinor := vmin % 256 },
             some (StreamItem.VersionMarker (vmaj % 256) (vmin % 256)))
      else .error (IonError.decoding DecodingError.unsupportedVersion)
    else .error (IonError.decoding DecodingError.malformedIvm)
  | _, _, _ => .error (IonError.source SourceErrorKind.unexpectedEndOfInput)

/-- Modelled from the spec: classify the next unit at the top level — a
version marker when the reserved `0xE0` signal byte leads, a value
otherwise. -/
def nextTopLevel (s : CursorState) : IonResult (CursorState × Option StreamItem) :=
  match s.bytes.get? s.pos with
  | none => .error (IonError.source SourceErrorKind.unexpectedEndOfInput)
  | some b =>
    if b % 256 = 224 then readIvm s
    else parseAnnotated s none

/-- Skip past the current item's body (if one is positioned) and clear the
positional state, leaving the cursor ready to classify the next unit. -/
def skipCurrent (s : CursorState) : CursorState :=
  { s with pos := effPos s, current := none, annots := [], fieldName := none }

/-- Modelled from the spec: the body of `next()` once the pending item has
been skipped.  Inside a frame, reaching the frame's end offset yields
`None` without consuming frame-external bytes (a struct child is preceded
by its VarUInt field-name symbol id); at the top level, a clean end of
stream at a value boundary likewise yields `None`. -/
def nextAfterSkip (s : CursorState) : IonResult (CursorState × Option StreamItem) :=
  match s.frames with
  | f :: _ =>
    if f.endOffset ≤ s.pos then .ok (s, none)
    else if f.kind = IonType.Struct then
      match readVarUIntAt s.bytes s.pos with
      | .error e => .error e
      | .ok (fid, p1) =>
        parseAnnotated { s with pos := p1 } (some (RawSymbolToken.symbolId fid))
    else parseAnnotated s none
  | [] =>
    if s.bytes.length ≤ s.pos then .ok (s, none)
    else nextTopLevel s

/-- Modelled from the spec: `next()` — skip any unconsumed current item,
then classify the following unit at the current depth, returning `None` at
a frame boundary or at a clean end of stream. -/
def next (s : CursorState) : IonResult (CursorState × Option StreamItem) :=
  nextAfterSkip (skipCurrent s)

/-- A cursor navigation operation a caller may issue while descending:
advance with `next()` (the yielded item is consumed by the caller) or
descend with `step_in()`.  `step_out()` is deliberately absent, so a run of
these operations is an "unmatched" descent; the `read_*` accessors do not
move the modelled cursor and are therefore irrelevant to nesting depth. -/
inductive CursorOp
  | opNext
  | opStepIn
deriving DecidableEq, Repr

/-- Run a sequence of navigation operations from a state, stopping at the
first failing operation. -/
def runOps : List CursorOp → CursorState → IonResult CursorState
  | [], s => .ok s
  | CursorOp.opNext :: rest, s =>
    match next s with
    | .ok (s1, _) => runOps rest s1
    | .error e => .error e
  | CursorOp.opStepIn :: rest, s =>
    match stepIn s with
    | .ok s1 => runOps rest s1
    | .error e => .error e

/-- The outcome of a run of the example driver: a value count, a propagated
typed error, a Rust panic (an `.unwrap()` of `None`), or fuel exhaustion of
the model's bounded loop. -/
inductive DriverResult
  | ok (count : Nat)
  | err (e : IonError)
  | panicked
  | outOfFuel
deriving DecidableEq, Repr

/-- Whether a driver outcome is the modelled panic. -/
def isPanic : DriverResult → Bool
  | DriverResult.panicked => true
  | _ => false

/-- Collapse an accessor result to the shape the driver observes: whether
the `.unwrap()` would succeed (`some`), panic (`none`), or propagate an
error. -/
def mapUnit (r : IonResult (Option α)) : IonResult (Option Unit) :=
  match r with
  | .ok (some _) => .ok (some ())
  | .ok none => .ok none
  | .error e => .error e

/-- The scalar accessor the example driver invokes for each Ion type, as in
`read_all_values`: `string_ref_map` for strings, `blob_ref_map` and
`clob_ref_map` for lobs, the typed `read_*` accessor otherwise.  Container
types and `Null` (handled separately by the driver) probe nothing. -/
def scalarProbe (s : CursorState) : IonType → IonResult (Option Unit)
  | IonType.String => string_ref_map s (fun _ => ())
  | IonType.Symbol => mapUnit (read_symbol s)
  | IonType.Integer => mapUnit (read_i64 s)
  | IonType.Float => mapUnit (read_f64 s)
  | IonType.Decimal => mapUnit (read_decimal s)
  | IonType.Timestamp => mapUnit (read_timestamp s)
  | IonType.Boolean => mapUnit (read_bool s)
  | IonType.Blob => blob_ref_map s (fun _ => ())
  | IonType.Clob => clob_ref_map s (fun _ => ())
  | _ => .ok (some ())

/-- The loop of `read_all_values` from the example: visit each stream item,
stepping into non-null containers, reading every scalar (panicking if an
`.unwrap()` meets `None`), stepping out at frame boundaries while
`depth() > 0`, and counting every value item.  The fuel argument bounds the
model's loop. -/
def readAllValuesAux : Nat → CursorState → Nat → DriverResult
  | 0, _, _ => DriverResult.outOfFuel
  | fuel + 1, s, count =>
    match next s with
    | .error e => DriverResult.err e
    | .ok (s1, none) =>
      if 0 < depth s1 then
        match stepOut s1 with
        | .error e => DriverResult.err e
        | .ok s2 => readAllValuesAux fuel s2 count
      else DriverResult.ok count
    | .ok (s1, some (StreamItem.VersionMarker _ _)) => readAllValuesAux fuel s1 count
    | .ok (s1, some (StreamItem.Value t isNullFlag)) =>
      if isNullFlag then readAllValuesAux fuel s1 (count + 1)
      else
        match t with
        | IonType.Struct | IonType.List | IonType.SExpression =>
          match stepIn s1 with
          | .error e => DriverResult.err e
          | .ok s2 => readAllValuesAux fuel s2 (count + 1)
        | IonType.Null => readAllValuesAux fuel s1 (count + 1)
        | ty =>
          match scalarProbe s1 ty with
          | .error e => DriverResult.err e
          | .ok none => DriverResult.panicked
          | .ok (some _) => readAllValuesAux fuel s1 (count + 1)

/-- `read_all_values` run from a fresh cursor over the given bytes. -/
def read_all_values (bytes : List Nat) (fuel : Nat) : DriverResult :=
  readAllValuesAux fuel (initState bytes) 0

/-! ### Structural lemmas about the accessor shape -/

lemma whenMatching_no_current {α : Type} (s : CursorState) (t : IonType)
    (k : Current → IonResult α) (hc : s.current = none) :
    whenMatching s t k = .ok none := by
  simp only [whenMatching, hc]

lemma whenMatching_not_matched {α : Type} (s : CursorState) (t : IonType)
    (k : Current → IonResult α) (c : Current) (hc : s.current = some c)
    (h : ¬(c.itemType = t ∧ c.isNull = false)) :
    whenMatching s t k = .ok none := by
  simp only [whenMatching, hc]
  rw [if_neg h]

lemma whenMatching_matched {α : Type} (s : CursorState) (t : IonType)
    (k : Current → IonResult α) (c : Current) (hc : s.current = some c)
    (ht : c.itemType = t) (hn : c.isNull = false) :
    whenMatching s t k =
      match k c with
      | .ok v => .ok (some v)
      | .error e => .error e := by
  simp only [whenMatching, hc]
  rw [if_pos ⟨ht, hn⟩]

lemma whenMatching_matched_ne_none {α : Type} (s : CursorState) (t : IonType)
    (k : Current → IonResult α) (c : Current) (hc : s.current = some c)
    (ht : c.itemType = t) (hn : c.isNull = false) :
    whenMatching s t k ≠ .ok none := by
  rw [whenMatching_matched s t k c hc ht hn]
  cases k c <;> simp

lemma mapUnit_ne_none {α : Type} {r : IonResult (Option α)} (h : r ≠ .ok none) :
    mapUnit r ≠ .ok none := by
  unfold mapUnit
  split <;> simp_all

/-! ### Structural lemmas about step_in / step_out -/

lemma stepIn_ok_frames {s s' : CursorState} (h : stepIn s = .ok s') :
    s'.frames.length = s.frames.length + 1 := by
  unfold stepIn at h
  split at h
  · split at h
    · injection h with h1
      subst h1
      simp
    · exact absurd h (by simp)
  · exact absurd h (by simp)

lemma stepOut_cons (s : CursorState) (f : Frame) (rest : List Frame)
    (h : s.frames = f :: rest) :
    stepOut s = .ok { s with pos := f.endOffset, frames := rest,
                             current := none, annots := [], fieldName := none } := by
  unfold stepOut
  rw [h]

lemma stepOut_nil (s : CursorState) (h : s.frames = []) :
    stepOut s = .error (IonError.state StateErrorKind.stepOutAtTopLevel) := by
  unfold stepOut
  rw [h]

/-! ### Lemmas about the VarUInt/VarInt decoding loop -/

lemma varUIntValueFrom_nil (acc : Nat) : varUIntValueFrom acc [] = acc := rfl

lemma varUIntValueFrom_cons (acc b : Nat) (bs : List Nat) :
    varUIntValueFrom acc (b :: bs) = varUIntValueFrom (acc * 128 + b % 128) bs := rfl

lemma le_varUIntValueFrom (bs : List Nat) : ∀ acc : Nat, acc ≤ varUIntValueFrom acc bs := by
  induction bs with
  | nil => intro acc; simp [varUIntValueFrom_nil]
  | cons b bs ih =>
    intro acc
    rw [varUIntValueFrom_cons]
    have h1 : acc ≤ acc * 128 + b % 128 := by omega
    exact le_trans h1 (ih _)

lemma varUIntGo_exact : ∀ (pre : List Nat) (acc last : Nat) (rest : List Nat),
    (∀ b ∈ pre, b < 128) → 128 ≤ last →
    varUIntValueFrom acc (pre ++ [last]) < varUIntLimit →
    varUIntGo (pre ++ last :: rest) acc =
      .ok (varUIntValueFrom acc (pre ++ [last]), pre.length + 1) := by
  intro pre
  induction pre with
  | nil =>
    intro acc last rest _ hterm hlt
    simp only [List.nil_append] at hlt ⊢
    rw [varUIntValueFrom_cons, varUIntValueFrom_nil] at hlt ⊢
    simp only [varUIntGo, List.append_eq]
    rw [if_neg (by omega), if_pos hterm]
    simp
  | cons b pre ih =>
    intro acc last rest hsmall hterm hlt
    have hb : b < 128 := hsmall b (by simp)
    simp only [List.cons_append] at hlt ⊢
    rw [varUIntValueFrom_cons] at hlt ⊢
    have hmono := le_varUIntValueFrom (pre ++ [last]) (acc * 128 + b % 128)
    simp only [varUIntGo, List.append_eq]
    rw [if_neg (by omega), if_neg (by omega)]
    rw [ih (acc * 128 + b % 128) last rest (fun x hx => hsmall x (by simp [hx])) hterm hlt]
    simp

lemma varUIntGo_overflow : ∀ (pre : List Nat) (acc last : Nat) (rest : List Nat),
    (∀ b ∈ pre, b < 128) → 128 ≤ last →
    varUIntLimit ≤ varUIntValueFrom acc (pre ++ [last]) →
    varUIntGo (pre ++ last :: rest) acc =
      .error (IonError.decoding DecodingError.overflow) := by
  intro pre
  induction pre with
  | nil =>
    intro acc last rest _ _ hge
    simp only [List.nil_append] at hge ⊢
    rw [varUIntValueFrom_cons, varUIntValueFrom_nil] at hge
    simp only [varUIntGo, List.append_eq]
    rw [if_pos hge]
  | cons b pre ih =>
    intro acc last rest hsmall hterm hge
    have hb : b < 128 := hsmall b (by simp)
    simp only [List.cons_append] at hge ⊢
    rw [varUIntValueFrom_cons] at hge
    simp only [varUIntGo, List.append_eq]
    by_cases hov : varUIntLimit ≤ acc * 128 + b % 128
    · rw [if_pos hov]
    · rw [if_neg hov, if_neg (by omega)]
      rw [ih (acc * 128 + b % 128) last rest (fun x hx => hsmall x (by simp [hx])) hterm hge]

lemma varIntFirstByte_cont_mod128 (neg : Bool) (m0 : Nat) (h : m0 < 64) :
    varIntFirstByte neg m0 false % 128 = (if neg then 64 else 0) + m0 := by
  unfold varIntFirstByte
  cases neg <;> simp <;> omega

lemma varIntFirstByte_cont_lt (neg : Bool) (m0 : Nat) (h : m0 < 64) :
    varIntFirstByte neg m0 false < 128 := by
  unfold varIntFirstByte
  cases neg <;> simp <;> omega

lemma varIntFirstByte_mod64 (neg : Bool) (m0 : Nat) (term : Bool) (h : m0 < 64) :
    varIntFirstByte neg m0 term % 64 = m0 := by
  unfold varIntFirstByte
  cases neg <;> cases term <;> simp <;> omega

lemma varIntFirstByte_sign (neg : Bool) (m0 : Nat) (term : Bool) (h : m0 < 64) :
    decide (64 ≤ varIntFirstByte neg m0 term % 128) = neg := by
  unfold varIntFirstByte
  cases neg <;> cases term <;> simp <;> omega

lemma varIntFirstByte_term_ge (neg : Bool) (m0 : Nat) :
    128 ≤ varIntFirstByte neg m0 true := by
  unfold varIntFirstByte
  cases neg <;> simp only [if_true, if_false] <;> omega

/-! ### Structural lemmas about descriptor parsing and next() -/

lemma parsePlain_ok (s : CursorState) (ans : List RawSymbolToken)
    (fn : Option RawSymbolToken) (s' : CursorState) (it : Option StreamItem)
    (h : parsePlain s ans fn = .ok (s', it)) :
    (∃ c, s'.current = some c ∧ it = some (StreamItem.Value c.itemType c.isNull)) ∧
      s'.frames = s.frames ∧ s'.bytes = s.bytes ∧
      s'.versionMajor = s.versionMajor ∧ s'.versionMinor = s.versionMinor := by
  unfold parsePlain at h
  repeat' split at h
  all_goals
    first
      | exact Except.noConfusion h
      | (simp only [Except.ok.injEq, Prod.mk.injEq] at h
         obtain ⟨h1, h2⟩ := h
         subst h1
         subst h2
         exact ⟨⟨_, rfl, rfl⟩, rfl, rfl, rfl, rfl⟩)

lemma parseAnnotated_ok (s : CursorState) (fn : Option RawSymbolToken)
    (s' : CursorState) (it : Option StreamItem)
    (h : parseAnnotated s fn = .ok (s', it)) :
    (∃ c, s'.current = some c ∧ it = some (StreamItem.Value c.itemType c.isNull)) ∧
      s'.frames = s.frames ∧ s'.bytes = s.bytes ∧
      s'.versionMajor = s.versionMajor ∧ s'.versionMinor = s.versionMinor := by
  unfold parseAnnotated at h
  repeat' split at h
  all_goals
    first
      | exact Except.noConfusion h
      | (obtain ⟨hc, hf, hb2, hv1, hv2⟩ := parsePlain_ok _ _ _ _ _ h
         exact ⟨hc, hf, hb2, hv1, hv2⟩)

lemma readIvm_ok (s : CursorState) (s' : CursorState) (it : Option StreamItem)
    (h : readIvm s = .ok (s', it)) :
    ∃ a b, it = some (StreamItem.VersionMarker a b) ∧
      s'.versionMajor = a ∧ s'.versionMinor = b ∧
      s'.frames = s.frames ∧ s'.bytes = s.bytes ∧ s'.current = s.current := by
  unfold readIvm at h
  repeat' split at h
  all_goals
    first
      | exact Except.noConfusion h
      | (simp only [Except.ok.injEq, Prod.mk.injEq] at h
         obtain ⟨h1, h2⟩ := h
         subst h1
         subst h2
         exact ⟨_, _, rfl, rfl, rfl, rfl, rfl, rfl⟩)

lemma nextTopLevel_ok (s : CursorState) (s' : CursorState) (it : Option StreamItem)
    (h : nextTopLevel s = .ok (s', it)) :
    ((∃ c, s'.current = some c ∧ it = some (StreamItem.Value c.itemType c.isNull)) ∧
        s'.frames = s.frames ∧ s'.bytes = s.bytes ∧
        s'.versionMajor = s.versionMajor ∧ s'.versionMinor = s.versionMinor)
    ∨ (∃ a b, it = some (StreamItem.VersionMarker a b) ∧
        s'.versionMajor = a ∧ s'.versionMinor = b ∧
        s'.frames = s.frames ∧ s'.bytes = s.bytes ∧ s'.current = s.current) := by
  unfold nextTopLevel at h
  repeat' split at h
  · exact Except.noConfusion h
  · exact Or.inr (readIvm_ok _ _ _ h)
  · exact Or.inl (parseAnnotated_ok _ _ _ _ h)

lemma skipCurrent_frames (s : CursorState) : (skipCurrent s).frames = s.frames := rfl

lemma skipCurrent_bytes (s : CursorState) : (skipCurrent s).bytes = s.bytes := rfl

lemma skipCurrent_current (s : CursorState) : (skipCurrent s).current = none := rfl

lemma skipCurrent_pos (s : CursorState) : (skipCurrent s).pos = effPos s := rfl

lemma next_ok (s : CursorState) (s' : CursorState) (it : Option StreamItem)
    (h : next s = .ok (s', it)) :
    (it = none ∧ s'.current = none ∧
        s'.versionMajor = s.versionMajor ∧ s'.versionMinor = s.versionMinor)
    ∨ ((∃ c, s'.current = some c ∧ it = some (StreamItem.Value c.itemType c.isNull)) ∧
        s'.versionMajor = s.versionMajor ∧ s'.versionMinor = s.versionMinor)
    ∨ (∃ a b, it = some (StreamItem.VersionMarker a b) ∧
        s'.versionMajor = a ∧ s'.versionMinor = b ∧ s'.current = none) := by
  unfold next nextAfterSkip at h
  split at h
  · split at h
    · simp only [Except.ok.injEq, Prod.mk.injEq] at h
      obtain ⟨h1, h2⟩ := h
      subst h1
      subst h2
      exact Or.inl ⟨rfl, rfl, rfl, rfl⟩
    · split at h
      · split at h
        · exact Except.noConfusion h
        · obtain ⟨hc, hf, hb2, hv1, hv2⟩ := parseAnnotated_ok _ _ _ _ h
          exact Or.inr (Or.inl ⟨hc, hv1, hv2⟩)
      · obtain ⟨hc, hf, hb2, hv1, hv2⟩ := parseAnnotated_ok _ _ _ _ h
        exact Or.inr (Or.inl ⟨hc, hv1, hv2⟩)
  · split at h
    · simp only [Except.ok.injEq, Prod.mk.injEq] at h
      obtain ⟨h1, h2⟩ := h
      subst h1
      subst h2
      exact Or.inl ⟨rfl, rfl, rfl, rfl⟩
    · rcases nextTopLevel_ok _ _ _ h with ⟨hc, hf, hb2, hv1, hv2⟩ | ⟨a, b, hit, hv1, hv2, hf, hb2, hcur⟩
      exacts [Or.inr (Or.inl ⟨hc, hv1, hv2⟩),
              Or.inr (Or.inr ⟨a, b, hit, hv1, hv2, hcur⟩)]

lemma next_ok_value (s s' : CursorState) (t : IonType) (b : Bool)
    (h : next s = .ok (s', some (StreamItem.Value t b))) :
    ∃ c, s'.current = some c ∧ c.itemType = t ∧ c.isNull = b := by
  rcases next_ok _ _ _ h with ⟨hn, _⟩ | ⟨⟨c, hc, hit⟩, _⟩ | ⟨a, bb, hit, _⟩
  · exact absurd hn (by simp)
  · simp only [Option.some.injEq, StreamItem.Value.injEq] at hit
    exact ⟨c, hc, hit.1.symm, hit.2.symm⟩
  · exact absurd hit (by simp)

lemma next_ok_marker (s s' : CursorState) (a b : Nat)
    (h : next s = .ok (s', some (StreamItem.VersionMarker a b))) :
    s'.versionMajor = a ∧ s'.versionMinor = b := by
  rcases next_ok _ _ _ h with ⟨hn, _⟩ | ⟨⟨c, hc, hit⟩, _⟩ | ⟨a1, b1, hit, hv1, hv2, _⟩
  · exact absurd hn (by simp)
  · exact absurd hit (by simp)
  · simp only [Option.some.injEq, StreamItem.VersionMarker.injEq] at hit
    exact ⟨hv1.trans hit.1.symm, hv2.trans hit.2.symm⟩

lemma next_ok_no_marker (s s' : CursorState) (it : Option StreamItem)
    (h : next s = .ok (s', it))
    (hm : ∀ a b, it ≠ some (StreamItem.VersionMarker a b)) :
    s'.versionMajor = s.versionMajor ∧ s'.versionMinor = s.versionMinor := by
  rcases next_ok _ _ _ h with ⟨_, _, hv1, hv2⟩ | ⟨_, hv1, hv2⟩ | ⟨a, b, hit, _⟩
  · exact ⟨hv1, hv2⟩
  · exact ⟨hv1, hv2⟩
  · exact absurd hit (hm a b)

lemma next_frames (s s' : CursorState) (it : Option StreamItem)
    (h : next s = .ok (s', it)) : s'.frames = s.frames := by
  unfold next nextAfterSkip at h
  split at h
  · split at h
    · simp only [Except.ok.injEq, Prod.mk.injEq] at h
      obtain ⟨h1, h2⟩ := h
      subst h1
      rfl
    · split at h
      · split at h
        · exact Except.noConfusion h
        · exact (parseAnnotated_ok _ _ _ _ h).2.1
      · exact (parseAnnotated_ok _ _ _ _ h).2.1
  · split at h
    · simp only [Except.ok.injEq, Prod.mk.injEq] at h
      obtain ⟨h1, h2⟩ := h
      subst h1
      rfl
    · rcases nextTopLevel_ok _ _ _ h with ⟨_, hf, _, _, _⟩ | ⟨a, b, _, _, _, hf, _, _⟩
      exacts [hf, hf]

lemma runOps_depth : ∀ (ops : List CursorOp) (s s' : CursorState),
    runOps ops s = .ok s' →
    s'.frames.length = s.frames.length + ops.count CursorOp.opStepIn := by
  intro ops
  induction ops with
  | nil =>
    intro s s' h
    simp only [runOps] at h
    injection h with h1
    subst h1
    simp
  | cons op rest ih =>
    intro s s' h
    cases op with
    | opNext =>
      simp only [runOps] at h
      cases hn : next s with
      | error e => rw [hn] at h; exact Except.noConfusion h
      | ok p =>
        obtain ⟨s1, it⟩ := p
        rw [hn] at h
        have h1 := ih s1 s' h
        have h2 := next_frames s s1 it hn
        rw [h1, h2, List.count_cons]
        simp
    | opStepIn =>
      simp only [runOps] at h
      cases hn : stepIn s with
      | error e => rw [hn] at h; exact Except.noConfusion h
      | ok s1 =>
        rw [hn] at h
        have h1 := ih s1 s' h
        have h2 := stepIn_ok_frames hn
        rw [h1, h2, List.count_cons]
        simp
        omega

/-! ### No panic in the example driver -/

lemma scalarProbe_ne_none (s : CursorState) (c : Current) (t : IonType)
    (hc : s.current = some c) (ht : c.itemType = t) (hn : c.isNull = false) :
    scalarProbe s t ≠ .ok none := by
  cases t <;>
    simp only [scalarProbe, string_ref_map, blob_ref_map, clob_ref_map,
               read_symbol, read_i64, read_f64, read_decimal, read_timestamp,
               read_bool] <;>
    first
      | exact whenMatching_matched_ne_none _ _ _ _ hc ht hn
      | exact mapUnit_ne_none (whenMatching_matched_ne_none _ _ _ _ hc ht hn)
      | simp

lemma readAllValues_no_panic :
    ∀ (fuel : Nat) (s : CursorState) (count : Nat),
      isPanic (readAllValuesAux fuel s count) = false := by
  intro fuel
  induction fuel with
  | zero => intro s count; rfl
  | succ n ih =>
    intro s count
    rw [readAllValuesAux]
    cases hn : next s with
    | error e => simp [isPanic]
    | ok p =>
      obtain ⟨s1, it⟩ := p
      cases it with
      | none =>
        simp only []
        split
        · cases hso : stepOut s1 with
          | error e => simp [isPanic]
          | ok s2 => simp only [hso]; exact ih s2 count
        · simp [isPanic]
      | some item =>
        cases item with
        | VersionMarker a b => exact ih s1 count
        | Value t bnull =>
          cases bnull with
          | true => simp only [if_pos rfl]; exact ih s1 (count + 1)
          | false =>
            simp only [Bool.false_eq_true, if_neg]
            obtain ⟨c, hc, hct, hcn⟩ := next_ok_value _ _ _ _ hn
            cases t <;>
              simp only [] <;>
              first
                | exact ih s1 (count + 1)
                | (cases hsi : stepIn s1 with
                    | error e => simp [isPanic]
                    | ok s2 => simp only [hsi]; exact ih s2 (count + 1))
                | (cases hp : scalarProbe s1 _ with
                    | error e => simp [hp, isPanic]
                    | ok o =>
                      cases o with
                      | none => exact absurd hp (scalarProbe_ne_none s1 c _ hc hct hcn)
                      | some u => simp only [hp]; exact ih s1 (count + 1))

lemma nextAfterSkip_boundary (s : CursorState) (f : Frame) (r : List Frame)
    (hf : s.frames = f :: r) (hp : f.endOffset ≤ s.pos) :
    nextAfterSkip s = .ok (s, none) := by
  unfold nextAfterSkip
  simp only [hf]
  rw [if_pos hp]

lemma nextAfterSkip_eof (s : CursorState) (hf : s.frames = [])
    (hp : s.bytes.length ≤ s.pos) : nextAfterSkip s = .ok (s, none) := by
  unfold nextAfterSkip
  simp only [hf]
  rw [if_pos hp]

/-! ### The claims -/

/-- C1: For every typed read accessor (`read_bool`, `read_i64`, `read_f32`,
`read_f64`, `read_decimal`, `read_string`, `read_symbol`, `read_blob_bytes`,
`read_clob_bytes`, `read_timestamp`): if the cursor is positioned on a value
whose type does not match the accessor, the accessor returns `Ok(None)` —
an equality with `Ok(None)`, so in particular never an `Err`. -/
theorem read_accessors_mismatch_ok_none (s : CursorState) (c : Current)
    (hc : s.current = some c) :
    (c.itemType ≠ IonType.Boolean → read_bool s = .ok none) ∧
    (c.itemType ≠ IonType.Integer → read_i64 s = .ok none) ∧
    (c.itemType ≠ IonType.Float → read_f32 s = .ok none) ∧
    (c.itemType ≠ IonType.Float → read_f64 s = .ok none) ∧
    (c.itemType ≠ IonType.Decimal → read_decimal s = .ok none) ∧
    (c.itemType ≠ IonType.String → read_string s = .ok none) ∧
    (c.itemType ≠ IonType.Symbol → read_symbol s = .ok none) ∧
    (c.itemType ≠ IonType.Blob → read_blob_bytes s = .ok none) ∧
    (c.itemType ≠ IonType.Clob → read_clob_bytes s = .ok none) ∧
    (c.itemType ≠ IonType.Timestamp → read_timestamp s = .ok none) := by
  refine ⟨?_, ?_, ?_, ?_, ?_, ?_, ?_, ?_, ?_, ?_⟩ <;>
    exact fun hne => whenMatching_not_matched _ _ _ _ hc (fun hp => hne hp.1)

/-- Witness for C1: on a cursor positioned over a boolean value, the
integer and string accessors both return `Ok(None)`. -/
theorem read_accessors_mismatch_ok_none_witness :
    read_i64 ⟨[], 0, [], 1, 0, some ⟨IonType.Boolean, false, 0, false, true⟩, [], none⟩ =
      .ok none ∧
    read_string ⟨[], 0, [], 1, 0, some ⟨IonType.Boolean, false, 0, false, true⟩, [], none⟩ =
      .ok none := by
  have h := read_accessors_mismatch_ok_none
    ⟨[], 0, [], 1, 0, some ⟨IonType.Boolean, false, 0, false, true⟩, [], none⟩
    ⟨IonType.Boolean, false, 0, false, true⟩ rfl
  exact ⟨h.2.1 (by decide), h.2.2.2.2.2.1 (by decide)⟩

/-- C8: When the cursor is positioned on a null value of declared type `T`:
`is_null()` is true, `read_null()` returns `Ok(Some(T))`, and every typed
accessor — the one for `T` included — returns `Ok(None)`, so the
null-of-matching-type case and the wrong-type case are indistinguishable
from the accessor's result alone. -/
theorem null_value_accessors (s : CursorState) (c : Current)
    (hc : s.current = some c) (hnull : c.isNull = true) :
    is_null s = true ∧
    read_null s = .ok (some c.itemType) ∧
    read_bool s = .ok none ∧
    read_i64 s = .ok none ∧
    read_f32 s = .ok none ∧
    read_f64 s = .ok none ∧
    read_decimal s = .ok none ∧
    read_string s = .ok none ∧
    read_symbol s = .ok none ∧
    read_blob_bytes s = .ok none ∧
    read_clob_bytes s = .ok none ∧
    read_timestamp s = .ok none := by
  refine ⟨by simp [is_null, hc, hnull], by simp [read_null, hc, hnull],
          ?_, ?_, ?_, ?_, ?_, ?_, ?_, ?_, ?_, ?_⟩ <;>
    exact whenMatching_not_matched _ _ _ _ hc
      (fun hp => by rw [hnull] at hp; exact absurd hp.2 (by decide))

/-- Witness for C8: on a cursor positioned over a null timestamp,
`is_null()` is true, `read_null()` reports `Timestamp`, and both the
timestamp accessor and the (mismatched) string accessor return `Ok(None)`. -/
theorem null_value_accessors_witness :
    is_null ⟨[], 0, [], 1, 0, some ⟨IonType.Timestamp, true, 0, false, false⟩, [], none⟩ =
      true ∧
    read_null ⟨[], 0, [], 1, 0, some ⟨IonType.Timestamp, true, 0, false, false⟩, [], none⟩ =
      .ok (some IonType.Timestamp) ∧
    read_timestamp ⟨[], 0, [], 1, 0, some ⟨IonType.Timestamp, true, 0, false, false⟩, [], none⟩ =
      .ok none ∧
    read_string ⟨[], 0, [], 1, 0, some ⟨IonType.Timestamp, true, 0, false, false⟩, [], none⟩ =
      .ok none := by
  have h := null_value_accessors
    ⟨[], 0, [], 1, 0, some ⟨IonType.Timestamp, true, 0, false, false⟩, [], none⟩
    ⟨IonType.Timestamp, true, 0, false, false⟩ rfl rfl
  exact ⟨h.1, h.2.1, h.2.2.2.2.2.2.2.2.2.2.2, h.2.2.2.2.2.2.2.1⟩

/-- C3: `step_in()` succeeds exactly when the current item is a non-null
container (list, s-expression or struct), pushing a frame whose end offset
equals the current position plus the remaining declared length; on a
scalar, a null (including a null container), or an absent current item it
fails with a state error. -/
theorem step_in_iff_nonnull_container (s : CursorState) :
    (∀ c, s.current = some c → isContainer c.itemType = true → c.isNull = false →
        stepIn s = .ok { s with frames := ⟨c.itemType, s.pos, s.pos + c.bodyLen⟩ :: s.frames,
                                current := none, annots := [], fieldName := none }) ∧
    (∀ c, s.current = some c → isContainer c.itemType = false ∨ c.isNull = true →
        stepIn s = .error (IonError.state StateErrorKind.stepInNotContainer)) ∧
    (s.current = none →
        stepIn s = .error (IonError.state StateErrorKind.stepInNotContainer)) := by
  refine ⟨?_, ?_, ?_⟩
  · intro c hc hcont hnn
    simp only [stepIn, hc]
    rw [if_pos ⟨hcont, hnn⟩]
  · intro c hc hbad
    simp only [stepIn, hc]
    rw [if_neg]
    rcases hbad with hb1 | hb2
    · exact fun hp => by rw [hp.1] at hb1; exact absurd hb1 (by decide)
    · exact fun hp => by rw [hp.2] at hb2; exact absurd hb2 (by decide)
  · intro hc
    simp only [stepIn, hc]

/-- Witness for C3: stepping into a non-null list whose 2-byte body starts
at position 1 pushes a frame ending at offset 3, and stepping in while over
an integer fails with a state error. -/
theorem step_in_iff_nonnull_container_witness :
    stepIn ⟨[180, 33, 5], 1, [], 1, 0, some ⟨IonType.List, false, 2, false, false⟩, [], none⟩ =
      .ok ⟨[180, 33, 5], 1, [⟨IonType.List, 1, 3⟩], 1, 0, none, [], none⟩ ∧
    stepIn ⟨[33, 5], 1, [], 1, 0, some ⟨IonType.Integer, false, 1, false, false⟩, [], none⟩ =
      .error (IonError.state StateErrorKind.stepInNotContainer) := by
  refine ⟨?_, ?_⟩
  · exact (step_in_iff_nonnull_container
      ⟨[180, 33, 5], 1, [], 1, 0, some ⟨IonType.List, false, 2, false, false⟩, [], none⟩).1
      ⟨IonType.List, false, 2, false, false⟩ rfl rfl rfl
  · exact (step_in_iff_nonnull_container
      ⟨[33, 5], 1, [], 1, 0, some ⟨IonType.Integer, false, 1, false, false⟩, [], none⟩).2.1
      ⟨IonType.Integer, false, 1, false, false⟩ rfl (Or.inl rfl)

/-- C4: `depth()` equals the length of the container-frame stack (hence is
always ≥ 0 as a natural number); after any successful run of cursor
navigation operations from depth 0 — `next()` calls interleaved with N
successful `step_in()` calls and no `step_out()` ("N unmatched step_ins") —
`depth()` equals N; every successful `step_out()` decreases it by exactly
1; and `step_out()` at depth 0 fails with a state error (the functional
model returns only the error, leaving the state — and so the depth —
unchanged). -/
theorem depth_invariants :
    (∀ s : CursorState, depth s = s.frames.length) ∧
    (∀ (ops : List CursorOp) (s s' : CursorState), s.frames = [] →
        runOps ops s = .ok s' → depth s' = ops.count CursorOp.opStepIn) ∧
    (∀ s s' : CursorState, stepOut s = .ok s' → depth s' + 1 = depth s) ∧
    (∀ s : CursorState, depth s = 0 →
        stepOut s = .error (IonError.state StateErrorKind.stepOutAtTopLevel)) := by
  refine ⟨fun s => rfl, ?_, ?_, ?_⟩
  · intro ops s s' h0 hrun
    have h := runOps_depth ops s s' hrun
    simp only [depth]
    rw [h, h0]
    simp
  · intro s s' h
    unfold stepOut at h
    split at h
    · exact Except.noConfusion h
    · injection h with h1
      subst h1
      simp [depth, *]
  · intro s h0
    exact stepOut_nil s (List.length_eq_zero.mp h0)

/-- Witness for C4: over the nested-list stream `B2 B1 20`, the run
next / step_in / next / step_in (two unmatched step-ins, with the `next()`
calls a real traversal needs in between) succeeds from depth 0 and ends at
depth 2; and step-out at depth 0 fails with the state error. -/
theorem depth_invariants_witness :
    depth ⟨[], 0, [⟨IonType.List, 0, 3⟩], 1, 0, none, [], none⟩ = 1 ∧
    depth ⟨[178, 177, 32], 2,
      [⟨IonType.List, 2, 3⟩, ⟨IonType.List, 1, 3⟩], 1, 0, none, [], none⟩ = 2 ∧
    stepOut ⟨[], 0, [], 1, 0, none, [], none⟩ =
      .error (IonError.state StateErrorKind.stepOutAtTopLevel) := by
  refine ⟨depth_invariants.1 _, ?_, depth_invariants.2.2.2 _ rfl⟩
  exact depth_invariants.2.1
    [CursorOp.opNext, CursorOp.opStepIn, CursorOp.opNext, CursorOp.opStepIn]
    (initState [178, 177, 32])
    ⟨[178, 177, 32], 2, [⟨IonType.List, 2, 3⟩, ⟨IonType.List, 1, 3⟩], 1, 0, none, [], none⟩
    rfl rfl

/-- C2: For every open container, `step_out()` pops the innermost frame and
repositions the byte cursor at that frame's recorded end offset.  Any two
cursor states sharing the byte source, version and frame stack — i.e. the
same container, after any number of children consumed (zero, some, or all,
reflected in differing positions and current items) — step out to the very
same state, so the resulting cursor position is identical and the following
`next()` (a function of that state) yields the same item: the container's
next sibling. -/
theorem step_out_end_offset_independent (s1 s2 : CursorState) (f : Frame)
    (r : List Frame) (hb : s1.bytes = s2.bytes)
    (hv1 : s1.versionMajor = s2.versionMajor) (hv2 : s1.versionMinor = s2.versionMinor)
    (h1 : s1.frames = f :: r) (h2 : s2.frames = f :: r) :
    ∃ u, stepOut s1 = .ok u ∧ stepOut s2 = .ok u ∧
      u.pos = f.endOffset ∧ u.frames = r ∧ u.current = none ∧
      (∀ v1 v2, stepOut s1 = .ok v1 → stepOut s2 = .ok v2 → next v1 = next v2) := by
  refine ⟨{ s1 with pos := f.endOffset, frames := r,
                    current := none, annots := [], fieldName := none },
          stepOut_cons s1 f r h1, ?_, rfl, rfl, rfl, ?_⟩
  · rw [stepOut_cons s2 f r h2]
    cases s1
    cases s2
    simp_all
  · intro v1 v2 hu1 hu2
    rw [stepOut_cons s1 f r h1] at hu1
    rw [stepOut_cons s2 f r h2] at hu2
    injection hu1 with e1
    injection hu2 with e2
    subst e1
    subst e2
    cases s1
    cases s2
    simp_all

/-- Witness for C2: two cursors inside the same list frame, one at the
start of the container body and one having consumed a child (different
positions and current items), step out to the identical state positioned at
the frame's end offset 3. -/
theorem step_out_end_offset_independent_witness :
    ∃ u, stepOut ⟨[180, 33, 5, 33, 7], 1, [⟨IonType.List, 1, 3⟩], 1, 0, none, [], none⟩ =
        .ok u ∧
      stepOut ⟨[180, 33, 5, 33, 7], 2,
        [⟨IonType.List, 1, 3⟩], 1, 0,
        some ⟨IonType.Integer, false, 1, false, false⟩, [], none⟩ = .ok u ∧
      u.pos = 3 ∧ u.frames = [] ∧ u.current = none ∧
      (∀ v1 v2,
        stepOut ⟨[180, 33, 5, 33, 7], 1, [⟨IonType.List, 1, 3⟩], 1, 0, none, [], none⟩ =
          .ok v1 →
        stepOut ⟨[180, 33, 5, 33, 7], 2,
          [⟨IonType.List, 1, 3⟩], 1, 0,
          some ⟨IonType.Integer, false, 1, false, false⟩, [], none⟩ = .ok v2 →
        next v1 = next v2) :=
  step_out_end_offset_independent
    ⟨[180, 33, 5, 33, 7], 1, [⟨IonType.List, 1, 3⟩], 1, 0, none, [], none⟩
    ⟨[180, 33, 5, 33, 7], 2, [⟨IonType.List, 1, 3⟩], 1, 0,
      some ⟨IonType.Integer, false, 1, false, false⟩, [], none⟩
    ⟨IonType.List, 1, 3⟩ [] rfl rfl rfl rfl rfl

/-- C5: When the cursor is inside a container frame and has reached the
frame's end offset (once the pending item's body is accounted for),
`next()` returns `Ok(None)` — not an error — leaving the position at the
frame's end, so no byte outside the frame is consumed and the frame stack
is untouched; and at the top level, after the final value of the stream,
`next()` returns `Ok(None)` with `depth()` equal to 0. -/
theorem next_at_frame_boundary_none (s : CursorState) :
    (∀ (f : Frame) (r : List Frame), s.frames = f :: r → effPos s = f.endOffset →
        ∃ s', next s = .ok (s', none) ∧ s'.pos = f.endOffset ∧ s'.frames = s.frames) ∧
    (s.frames = [] → s.bytes.length ≤ effPos s →
        ∃ s', next s = .ok (s', none) ∧ depth s' = 0) := by
  refine ⟨?_, ?_⟩
  · intro f r hf he
    refine ⟨skipCurrent s, ?_, (skipCurrent_pos s).trans he, (skipCurrent_frames s)⟩
    exact nextAfterSkip_boundary (skipCurrent s) f r ((skipCurrent_frames s).trans hf)
      (le_of_eq (((skipCurrent_pos s).trans he).symm))
  · intro hf he
    refine ⟨skipCurrent s, ?_, ?_⟩
    · exact nextAfterSkip_eof (skipCurrent s) ((skipCurrent_frames s).trans hf)
        (le_of_le_of_eq he (skipCurrent_pos s).symm)
    · simp only [depth, skipCurrent_frames, hf, List.length_nil]

/-- Witness for C5: a cursor whose current item's body ends exactly at its
list frame's end offset 3 gets `Ok(None)` from `next()` while staying at
position 3 with its frame intact; and a top-level cursor past the last byte
gets `Ok(None)` at depth 0. -/
theorem next_at_frame_boundary_none_witness :
    (∃ s', next ⟨[180, 33, 5, 33, 7], 2,
        [⟨IonType.List, 1, 3⟩], 1, 0,
        some ⟨IonType.Integer, false, 1, false, false⟩, [], none⟩ = .ok (s', none) ∧
      s'.pos = 3 ∧ s'.frames = [⟨IonType.List, 1, 3⟩]) ∧
    (∃ s', next ⟨[33, 5], 1, [], 1, 0,
        some ⟨IonType.Integer, false, 1, false, false⟩, [], none⟩ = .ok (s', none) ∧
      depth s' = 0) := by
  refine ⟨?_, ?_⟩
  · obtain ⟨s', h1, h2, h3⟩ := (next_at_frame_boundary_none
      ⟨[180, 33, 5, 33, 7], 2, [⟨IonType.List, 1, 3⟩], 1, 0,
        some ⟨IonType.Integer, false, 1, false, false⟩, [], none⟩).1
      ⟨IonType.List, 1, 3⟩ [] rfl rfl
    exact ⟨s', h1, h2, h3⟩
  · exact (next_at_frame_boundary_none
      ⟨[33, 5], 1, [], 1, 0,
        some ⟨IonType.Integer, false, 1, false, false⟩, [], none⟩).2 rfl (by decide)

/-- C9: Before any Ion Version Marker has been read — i.e. on a freshly
created cursor — `ion_version()` returns (1, 0); when `next()` yields a
version marker, `ion_version()` afterwards reports exactly the major/minor
version declared by that marker; and a `next()` that yields anything other
than a version marker leaves the reported version unchanged. -/
theorem ion_version_reporting :
    (∀ bs : List Nat, ion_version (initState bs) = (1, 0)) ∧
    (∀ (s s' : CursorState) (a b : Nat),
        next s = .ok (s', some (StreamItem.VersionMarker a b)) →
        ion_version s' = (a, b)) ∧
    (∀ (s s' : CursorState) (it : Option StreamItem),
        next s = .ok (s', it) → (∀ a b, it ≠ some (StreamItem.VersionMarker a b)) →
        ion_version s' = ion_version s) := by
  refine ⟨fun bs => rfl, ?_, ?_⟩
  · intro s s' a b h
    obtain ⟨e1, e2⟩ := next_ok_marker s s' a b h
    simp [ion_version, e1, e2]
  · intro s s' it h hm
    obtain ⟨e1, e2⟩ := next_ok_no_marker s s' it h hm
    simp [ion_version, e1, e2]

/-- Witness for C9: a fresh cursor reports version (1, 0); after reading
the marker `E0 01 00 EA` the reported version is the declared (1, 0); and a
`next()` yielding an integer value leaves the version unchanged. -/
theorem ion_version_reporting_witness :
    ion_version (initState [224, 1, 0, 234]) = (1, 0) ∧
    ion_version (⟨[224, 1, 0, 234], 4, [], 1, 0, none, [], none⟩ : CursorState) = (1, 0) ∧
    ion_version (⟨[33, 5], 1, [], 1, 0,
      some ⟨IonType.Integer, false, 1, false, false⟩, [], none⟩ : CursorState) = (1, 0) := by
  refine ⟨ion_version_reporting.1 [224, 1, 0, 234], ?_, ?_⟩
  · exact ion_version_reporting.2.1 (initState [224, 1, 0, 234])
      ⟨[224, 1, 0, 234], 4, [], 1, 0, none, [], none⟩ 1 0 rfl
  · exact ion_version_reporting.2.2 (initState [33, 5])
      ⟨[33, 5], 1, [], 1, 0, some ⟨IonType.Integer, false, 1, false, false⟩, [], none⟩
      (some (StreamItem.Value IonType.Integer false)) rfl (by simp)

/-- C6: For every valid VarUInt or VarInt byte encoding (any run of
non-terminal 7-bit group bytes followed by a terminal byte with the
reserved high bit set, the VarInt's first byte carrying the sign and 6
magnitude bits) whose encoded value fits in 63 bits, the decoder returns
exactly the encoded value (and consumes exactly the encoding's bytes); and
for every encoding whose accumulated magnitude exceeds the 64-bit native
width, the decoder returns `DecodingError::Overflow`. -/
theorem varint_decoders_exact_and_overflow :
    (∀ (pre : List Nat) (last : Nat) (rest : List Nat),
        (∀ b ∈ pre, b < 128) → 128 ≤ last →
        varUIntValue (pre ++ [last]) < 2 ^ 63 →
        readVarUIntAt (pre ++ last :: rest) 0 =
          .ok (varUIntValue (pre ++ [last]), pre.length + 1)) ∧
    (∀ (pre : List Nat) (last : Nat) (rest : List Nat),
        (∀ b ∈ pre, b < 128) → 128 ≤ last →
        2 ^ 64 ≤ varUIntValue (pre ++ [last]) →
        readVarUIntAt (pre ++ last :: rest) 0 =
          .error (IonError.decoding DecodingError.overflow)) ∧
    (∀ (neg : Bool) (m0 : Nat), m0 < 64 →
        readVarInt [varIntFirstByte neg m0 true] = .ok (signedInt neg m0, 1)) ∧
    (∀ (neg : Bool) (m0 : Nat) (pre : List Nat) (last : Nat) (rest : List Nat),
        m0 < 64 → (∀ b ∈ pre, b < 128) → 128 ≤ last →
        varUIntValueFrom m0 (pre ++ [last]) < 2 ^ 63 →
        readVarInt (varIntFirstByte neg m0 false :: (pre ++ last :: rest)) =
          .ok (signedInt neg (varUIntValueFrom m0 (pre ++ [last])), pre.length + 2)) ∧
    (∀ (neg : Bool) (m0 : Nat) (pre : List Nat) (last : Nat) (rest : List Nat),
        m0 < 64 → (∀ b ∈ pre, b < 128) → 128 ≤ last →
        2 ^ 64 ≤ varUIntValueFrom m0 (pre ++ [last]) →
        readVarInt (varIntFirstByte neg m0 false :: (pre ++ last :: rest)) =
          .error (IonError.decoding DecodingError.overflow)) := by
  have hl63 : varUIntLimit = 2 ^ 63 := rfl
  have hl64 : (2 : Nat) ^ 63 ≤ 2 ^ 64 := by norm_num
  refine ⟨?_, ?_, ?_, ?_, ?_⟩
  · intro pre last rest hs ht hlt
    simp only [readVarUIntAt, List.drop_zero]
    rw [varUIntGo_exact pre 0 last rest hs ht (by rw [hl63]; exact hlt)]
    simp [varUIntValue]
  · intro pre last rest hs ht hge
    simp only [readVarUIntAt, List.drop_zero]
    rw [varUIntGo_overflow pre 0 last rest hs ht (by rw [hl63]; exact le_trans hl64 hge)]
  · intro neg m0 hm
    simp only [readVarInt, readVarIntParts]
    rw [if_pos (varIntFirstByte_term_ge neg m0)]
    rw [varIntFirstByte_sign neg m0 true hm, varIntFirstByte_mod64 neg m0 true hm]
  · intro neg m0 pre last rest hm hs ht hlt
    simp only [readVarInt, readVarIntParts]
    rw [if_neg (by have := varIntFirstByte_cont_lt neg m0 hm; omega)]
    rw [varIntFirstByte_mod64 neg m0 false hm]
    rw [varUIntGo_exact pre m0 last rest hs ht (by rw [hl63]; exact hlt)]
    rw [varIntFirstByte_sign neg m0 false hm]
  · intro neg m0 pre last rest hm hs ht hge
    simp only [readVarInt, readVarIntParts]
    rw [if_neg (by have := varIntFirstByte_cont_lt neg m0 hm; omega)]
    rw [varIntFirstByte_mod64 neg m0 false hm]
    rw [varUIntGo_overflow pre m0 last rest hs ht (by rw [hl63]; exact le_trans hl64 hge)]

/-- Witness for C6: the two-byte VarUInt `01 87` decodes to 135 consuming
2 bytes; the ten-byte all-ones VarUInt overflows; the VarInt `41 87`
(sign bit set, then terminal byte) decodes to -135. -/
theorem varint_decoders_exact_and_overflow_witness :
    readVarUIntAt [1, 135] 0 = .ok (135, 2) ∧
    readVarUIntAt [127, 127, 127, 127, 127, 127, 127, 127, 127, 255] 0 =
      .error (IonError.decoding DecodingError.overflow) ∧
    readVarInt [65, 135] = .ok (-135, 2) := by
  refine ⟨?_, ?_, ?_⟩
  · have h := varint_decoders_exact_and_overflow.1 [1] 135 []
      (by decide) (by decide) (by decide)
    exact h
  · have h := varint_decoders_exact_and_overflow.2.1
      [127, 127, 127, 127, 127, 127, 127, 127, 127] 255 []
      (by decide) (by decide) (by decide)
    exact h
  · have h := varint_decoders_exact_and_overflow.2.2.2.1 true 1 [] 135 []
      (by decide) (by decide) (by decide) (by decide)
    exact h

/-- C7: For every input byte sequence, including every malformed one, every
fallible cursor operation of the model returns a typed result — an `Ok`
value or an error drawn from the closed taxonomy `DecodingError` /
`StateError` / `SourceError` — and the example driver run over the cursor
never reaches the modelled panic, the only panic site; malformed input
surfaces as a typed error, never as a crash of the model. -/
theorem cursor_total_typed_errors :
    (∀ s : CursorState, (∃ p, next s = .ok p) ∨ ∃ e : IonError, next s = .error e) ∧
    (∀ s : CursorState, (∃ s', stepIn s = .ok s') ∨ ∃ e : IonError, stepIn s = .error e) ∧
    (∀ s : CursorState, (∃ s', stepOut s = .ok s') ∨ ∃ e : IonError, stepOut s = .error e) ∧
    (∀ e : IonError, (∃ d, e = IonError.decoding d) ∨
        (∃ k, e = IonError.state k) ∨ (∃ k, e = IonError.source k)) ∧
    (∀ (fuel : Nat) (s : CursorState) (count : Nat),
        isPanic (readAllValuesAux fuel s count) = false) := by
  refine ⟨?_, ?_, ?_, ?_, readAllValues_no_panic⟩
  · intro s
    cases h : next s with
    | ok p => exact Or.inl ⟨p, rfl⟩
    | error e => exact Or.inr ⟨e, rfl⟩
  · intro s
    cases h : stepIn s with
    | ok p => exact Or.inl ⟨p, rfl⟩
    | error e => exact Or.inr ⟨e, rfl⟩
  · intro s
    cases h : stepOut s with
    | ok p => exact Or.inl ⟨p, rfl⟩
    | error e => exact Or.inr ⟨e, rfl⟩
  · intro e
    cases e with
    | decoding d => exact Or.inl ⟨d, rfl⟩
    | state k => exact Or.inr (Or.inl ⟨k, rfl⟩)
    | source k => exact Or.inr (Or.inr ⟨k, rfl⟩)

/-- C10: In the modelled `read_all_values` driver, an `.unwrap()` on a read
accessor is reached only after `next()` returned a non-null value of the
exactly matching type, so the accessor never returns `Ok(None)` there and
the driver never panics, on any stream whatsoever (in particular on every
stream on which the loop does not return an `Err`); moreover each loop step
counts every `Value` item by exactly one — null values, non-null container
values, non-null `Null`-typed values and non-null scalar values alike all
continue with `count + 1` — and a `VersionMarker` step continues with the
count unchanged. -/
theorem read_all_values_no_panic_counts :
    (∀ (fuel : Nat) (s : CursorState) (count : Nat),
        isPanic (readAllValuesAux fuel s count) = false) ∧
    (∀ (fuel : Nat) (s s' : CursorState) (count a b : Nat),
        next s = .ok (s', some (StreamItem.VersionMarker a b)) →
        readAllValuesAux (fuel + 1) s count = readAllValuesAux fuel s' count) ∧
    (∀ (fuel : Nat) (s s' : CursorState) (count : Nat) (t : IonType),
        next s = .ok (s', some (StreamItem.Value t true)) →
        readAllValuesAux (fuel + 1) s count = readAllValuesAux fuel s' (count + 1)) ∧
    (∀ (fuel : Nat) (s s' : CursorState) (count : Nat) (t : IonType),
        next s = .ok (s', some (StreamItem.Value t false)) → isContainer t = true →
        readAllValuesAux (fuel + 1) s count =
          (match stepIn s' with
           | .error e => DriverResult.err e
           | .ok s2 => readAllValuesAux fuel s2 (count + 1))) ∧
    (∀ (fuel : Nat) (s s' : CursorState) (count : Nat),
        next s = .ok (s', some (StreamItem.Value IonType.Null false)) →
        readAllValuesAux (fuel + 1) s count = readAllValuesAux fuel s' (count + 1)) ∧
    (∀ (fuel : Nat) (s s' : CursorState) (count : Nat) (t : IonType),
        next s = .ok (s', some (StreamItem.Value t false)) →
        isContainer t = false → t ≠ IonType.Null →
        readAllValuesAux (fuel + 1) s count =
          (match scalarProbe s' t with
           | .error e => DriverResult.err e
           | .ok none => DriverResult.panicked
           | .ok (some _) => readAllValuesAux fuel s' (count + 1))) := by
  refine ⟨readAllValues_no_panic, ?_, ?_, ?_, ?_, ?_⟩
  · intro fuel s s' count a b h
    rw [readAllValuesAux]
    rw [h]
  · intro fuel s s' count t h
    rw [readAllValuesAux]
    rw [h]
    rfl
  · intro fuel s s' count t h hcont
    cases t <;> try exact absurd hcont (by decide)
    all_goals
      rw [readAllValuesAux]
      rw [h]
      rfl
  · intro fuel s s' count h
    rw [readAllValuesAux]
    rw [h]
    rfl
  · intro fuel s s' count t h hcont hnotnull
    cases t
    case Null => exact absurd rfl hnotnull
    case List => exact absurd hcont (by decide)
    case SExpression => exact absurd hcont (by decide)
    case Struct => exact absurd hcont (by decide)
    all_goals
      rw [readAllValuesAux]
      rw [h]
      rfl

/-- Witness for C10: over the single version-marker stream `E0 01 00 EA`,
one driver step skips the marker without counting it; over the single null
integer value `2F`, one driver step counts the null value; over the
non-null integer value `21 05`, one driver step reads the scalar and
counts it; over the non-null one-element list `B2 21 05`, one driver step
steps in and counts the container. -/
theorem read_all_values_no_panic_counts_witness :
    readAllValuesAux 3 (initState [224, 1, 0, 234]) 0 =
      readAllValuesAux 2 ⟨[224, 1, 0, 234], 4, [], 1, 0, none, [], none⟩ 0 ∧
    readAllValuesAux 3 (initState [47]) 0 =
      readAllValuesAux 2 ⟨[47], 1, [], 1, 0,
        some ⟨IonType.Integer, true, 0, false, false⟩, [], none⟩ 1 ∧
    readAllValuesAux 3 (initState [33, 5]) 0 =
      readAllValuesAux 2 ⟨[33, 5], 1, [], 1, 0,
        some ⟨IonType.Integer, false, 1, false, false⟩, [], none⟩ 1 ∧
    readAllValuesAux 3 (initState [178, 33, 5]) 0 =
      readAllValuesAux 2 ⟨[178, 33, 5], 1, [⟨IonType.List, 1, 3⟩], 1, 0,
        none, [], none⟩ 1 := by
  refine ⟨?_, ?_, ?_, ?_⟩
  · exact read_all_values_no_panic_counts.2.1 2 (initState [224, 1, 0, 234])
      ⟨[224, 1, 0, 234], 4, [], 1, 0, none, [], none⟩ 0 1 0 rfl
  · exact read_all_values_no_panic_counts.2.2.1 2 (initState [47])
      ⟨[47], 1, [], 1, 0, some ⟨IonType.Integer, true, 0, false, false⟩, [], none⟩ 0
      IonType.Integer rfl
  · exact (read_all_values_no_panic_counts.2.2.2.2.2 2 (initState [33, 5])
      ⟨[33, 5], 1, [], 1, 0, some ⟨IonType.Integer, false, 1, false, false⟩, [], none⟩ 0
      IonType.Integer rfl rfl (by decide)).trans rfl
  · exact (read_all_values_no_panic_counts.2.2.2.1 2 (initState [178, 33, 5])
      ⟨[178, 33, 5], 1, [], 1, 0, some ⟨IonType.List, false, 2, false, false⟩, [], none⟩ 0
      IonType.List rfl rfl).trans rfl

end Ion
